import Mathlib

/-!
Verification of the rule-matching and resolution engine of the
AWS-Lambda-FileMover repository (src/lambda_function.py).

The Python source is shallowly embedded below.  Conventions:

* Python strings are Lean `String`s; the Python string operations used by the
  source (`lower`, `startswith`, `endswith`, `in`, `split`, `join`) are
  re-implemented over the character list so that every definition is a plain
  structural recursion that the kernel can evaluate.  All inputs exercised by
  the source are ASCII, where `Char.toLower` agrees with Python `str.lower`.
* A Python dict field that may be absent is an `Option`; `dict.get(k, d)`
  becomes `Option.getD`.
* Code that can raise (`filename_filter["value"]`, `re.search` on a bad
  pattern) lives in `Except String`; an `.error` value is a raised exception
  propagating to the caller.
* The `re.search` call is external library code, so filter evaluation is
  parameterised by a `RegexOracle` giving the result of
  `re.search(pattern, filename, flags)`: `.ok b` for a successful search,
  `.error e` for an `re.error` raised by an invalid pattern.
* The S3 client is external: `head_object`/`get_object`+`json.loads` outcomes
  are inputs of `load_routing_config`, and `copy_object`/`delete_object`
  outcomes are inputs of `process_file` (`FileEffects`).  The formatted
  `datetime.now()` string is likewise an input.
* The event records carry the already percent-decoded object key
  (`urllib.parse.unquote_plus` is external decoding plumbing).
-/

deriving instance DecidableEq for Except

/-! ### Python string primitives -/

/-- Python `str.lower` (ASCII). -/
def pyLower (s : String) : String :=
  ⟨s.data.map Char.toLower⟩

/-- Python `s.startswith(p)`. -/
def pyStartsWith (s p : String) : Bool :=
  p.data.isPrefixOf s.data

/-- Python `s.endswith(p)`. -/
def pyEndsWith (s p : String) : Bool :=
  p.data.isSuffixOf s.data

def pyContainsSubAux (needle : List Char) : List Char → Bool
  | [] => needle.isEmpty
  | c :: cs => needle.isPrefixOf (c :: cs) || pyContainsSubAux needle cs

/-- Python `needle in hay` (substring containment). -/
def pyContainsSub (hay needle : String) : Bool :=
  pyContainsSubAux needle.data hay.data

/-- Python `c in s` for a single character. -/
def pyContainsChar (s : String) (c : Char) : Bool :=
  s.data.contains c

def pySplitCharAux (c : Char) : List Char → List (List Char)
  | [] => [[]]
  | x :: xs =>
    if x = c then [] :: pySplitCharAux c xs
    else
      match pySplitCharAux c xs with
      | [] => [[x]]
      | p :: ps => (x :: p) :: ps

/-- Python `s.split(c)` for a one-character separator.  Never returns `[]`;
splitting the empty string gives a list holding one empty string. -/
def pySplitChar (c : Char) (s : String) : List String :=
  (pySplitCharAux c s.data).map String.mk

def pyJoinCharAux (c : Char) : List (List Char) → List Char
  | [] => []
  | [p] => p
  | p :: ps => p ++ c :: pyJoinCharAux c ps

/-- Python `c.join(parts)` for a one-character separator. -/
def pyJoinChar (c : Char) (parts : List String) : String :=
  ⟨pyJoinCharAux c (parts.map String.data)⟩

/-- Embeds `source_key.split("/")[-1]`: the final path segment. -/
def lastSegment (s : String) : String :=
  (pySplitChar '/' s).getLastD ""

/-- Embeds the `source_folder` expression of `matches_rule` (line 153):
the segments before the last one joined with `"/"` and a trailing `"/"`
appended when the key holds a separator, the empty string otherwise. -/
def sourceFolder (source_key : String) : String :=
  if pyContainsChar source_key '/' then
    pyJoinChar '/' ((pySplitChar '/' source_key).dropLast) ++ "/"
  else ""

/-! ### Filename filters (the JSON dicts fed to `check_filename_filter`) -/

mutual
/-- A `filename_filter` JSON object: fields `type`, `case_sensitive`, `value`,
`patterns`, `match_logic`, each possibly absent.  An entirely absent dict and
the empty dict `{}` are conflated (`FilterDict.empty`); the source treats them
identically (`if not filename_filter: return True`, and every field read uses
`.get` with a default).  A `patterns` key that is absent and one bound to `[]`
are likewise conflated (the source reads it as `.get("patterns", [])`). -/
inductive FilterDict : Type where
  | mk (ftype : Option String) (case_sensitive : Option Bool)
    (value : Option String) (patterns : FilterList) (match_logic : Option String) : FilterDict

/-- A JSON list of nested filter dicts. -/
inductive FilterList : Type where
  | nil : FilterList
  | cons (f : FilterDict) (fs : FilterList) : FilterList
end

def FilterDict.ftype : FilterDict → Option String
  | .mk t _ _ _ _ => t

def FilterDict.case_sensitive : FilterDict → Option Bool
  | .mk _ c _ _ _ => c

def FilterDict.value : FilterDict → Option String
  | .mk _ _ v _ _ => v

def FilterDict.patterns : FilterDict → FilterList
  | .mk _ _ _ p _ => p

def FilterDict.match_logic : FilterDict → Option String
  | .mk _ _ _ _ m => m

def FilterList.isNil : FilterList → Bool
  | .nil => true
  | .cons _ _ => false

/-- The empty dict, the default the source uses when `filename_filter` is
absent from the rule. -/
def FilterDict.empty : FilterDict := .mk none none none .nil none

/-- Python truthiness test `not filename_filter` for the filter dict. -/
def FilterDict.isEmpty (f : FilterDict) : Bool :=
  f.ftype.isNone && f.case_sensitive.isNone && f.value.isNone
    && f.patterns.isNil && f.match_logic.isNone

/-- The result of the external `re.search(pattern, filename, flags)` call:
`.ok b` when the search ran (`b` = a match was found), `.error e` when the
pattern is invalid and `re.error` is raised.  The third argument is the
`case_sensitive` flag of the source (flags = 0 if case_sensitive else
re.IGNORECASE). -/
def RegexOracle : Type := String → String → Bool → Except String Bool

mutual
/-- Embeds `check_filename_filter(filename, filename_filter)` (lines
201-265).  Dict reads `filename_filter["value"]` raise `KeyError: value`
when the field is absent; the regex branch defers to the `RegexOracle`. -/
def check_filename_filter (oracle : RegexOracle) (filename : String) :
    FilterDict → Except String Bool
  | .mk ftype0 cs0 value0 pats0 ml0 =>
    if (FilterDict.mk ftype0 cs0 value0 pats0 ml0).isEmpty then .ok true
    else
      let filter_type := ftype0.getD "none"
      let case_sensitive := cs0.getD false
      let check_filename := if case_sensitive then filename else pyLower filename
      if filter_type = "starts_with" then
        match value0 with
        | none => .error "KeyError: value"
        | some value =>
          let check_value := if case_sensitive then value else pyLower value
          .ok (pyStartsWith check_filename check_value)
      else if filter_type = "not_starts_with" then
        match value0 with
        | none => .error "KeyError: value"
        | some value =>
          let check_value := if case_sensitive then value else pyLower value
          .ok (!pyStartsWith check_filename check_value)
      else if filter_type = "ends_with" then
        match value0 with
        | none => .error "KeyError: value"
        | some value =>
          let check_value := if case_sensitive then value else pyLower value
          .ok (pyEndsWith check_filename check_value)
      else if filter_type = "contains" then
        match value0 with
        | none => .error "KeyError: value"
        | some value =>
          let check_value := if case_sensitive then value else pyLower value
          .ok (pyContainsSub check_filename check_value)
      else if filter_type = "regex" then
        match value0 with
        | none => .error "KeyError: value"
        | some pat => oracle pat filename case_sensitive
      else if filter_type = "multiple_patterns" then
        match check_filter_list oracle filename pats0 with
        | .error e => .error e
        | .ok results =>
          let match_logic := ml0.getD "any"
          .ok (if match_logic = "any" then results.any id else results.all id)
      else .ok true

/-- The `for pattern in patterns` loop of the `multiple_patterns` branch
(lines 251-254): evaluates every nested filter in order, collecting the
boolean results; an exception from a nested filter propagates. -/
def check_filter_list (oracle : RegexOracle) (filename : String) :
    FilterList → Except String (List Bool)
  | .nil => .ok []
  | .cons p ps =>
    match check_filename_filter oracle filename p with
    | .error e => .error e
    | .ok b =>
      match check_filter_list oracle filename ps with
      | .error e => .error e
      | .ok bs => .ok (b :: bs)
end

/-! ### File-type gate -/

/-- Embeds the extension expression of line 272: a dot plus everything
after the last dot, the empty string for a dot-free filename. -/
def file_ext (filename : String) : String :=
  if pyContainsChar filename '.' then "." ++ (pySplitChar '.' filename).getLastD ""
  else ""

/-- Embeds `check_file_type(filename, allowed_types)` (lines 267-273). -/
def check_file_type (filename : String) (allowed_types : List String) : Bool :=
  if allowed_types = [] then true
  else (allowed_types.map pyLower).contains (pyLower (file_ext filename))

/-! ### Routing rules -/

/-- One routing-rule JSON object.  Fields read with `.get` in the source are
`Option`s; `name`, `destination_bucket` and `destination_pfx` are read with
mandatory indexing (`rule["name"]`, ...) only inside the `try` of
`process_file` and are modelled as always-present strings.
`destination_pfx` embeds the source field `destination_` + `prefix`.
`source_patterns` appears only in the (never-called) fallback config. -/
structure Rule where
  name : String
  priority : Option Int
  enabled : Option Bool
  pattern_type : Option String
  source_pattern : Option String
  source_patterns : Option (List String)
  file_types : Option (List String)
  filename_filter : Option FilterDict
  destination_bucket : String
  destination_pfx : String
  add_timestamp : Option Bool
  delete_source : Option Bool
  matched_keyword : Option String

/-- Embeds `matches_rule(source_key, filename, rule)` (lines 129-174). -/
def matches_rule (oracle : RegexOracle) (source_key filename : String) (rule : Rule) :
    Except String Bool :=
  if rule.enabled.getD true = false then .ok false
  else if check_file_type filename (rule.file_types.getD []) = false then .ok false
  else
    let pattern_type := rule.pattern_type.getD "prefix"
    let source_pattern := rule.source_pattern.getD ""
    let source_folder := sourceFolder source_key
    if (pattern_type = "prefix_with_filename_filter" ∨ pattern_type = "prefix")
        ∧ source_folder = source_pattern then
      if pattern_type = "prefix_with_filename_filter" then
        check_filename_filter oracle filename (rule.filename_filter.getD FilterDict.empty)
      else .ok true
    else .ok false

/-- The `for rule in routing_rules` loop of `find_best_destination`
(lines 122-127): first rule whose matcher returns `True`. -/
def find_first_match (oracle : RegexOracle) (source_key filename : String) :
    List Rule → Except String (Option Rule)
  | [] => .ok none
  | r :: rs =>
    match matches_rule oracle source_key filename r with
    | .error e => .error e
    | .ok true => .ok (some r)
    | .ok false => find_first_match oracle source_key filename rs

/-- Embeds `find_best_destination(source_key, routing_rules)` (lines
113-127). -/
def find_best_destination (oracle : RegexOracle) (source_key : String)
    (routing_rules : List Rule) : Except String (Option Rule) :=
  if pyStartsWith (lastSegment source_key) "." || pyEndsWith source_key "/" then .ok none
  else find_first_match oracle source_key (lastSegment source_key) routing_rules

/-! ### Config loading and caching -/

/-- The sort key of line 85: the priority of the rule, defaulting to
999 when the field is absent. -/
def ruleKey (r : Rule) : Int :=
  r.priority.getD 999

/-- Stable ascending insertion used to model Python `list.sort` (stable,
ascending): the new element goes after every element whose key is strictly
smaller and before the first element whose key is ≥ its own, so equal-key
elements keep their source order. -/
def insert_rule (x : Rule) : List Rule → List Rule
  | [] => [x]
  | y :: ys => if ruleKey y < ruleKey x then y :: insert_rule x ys else x :: y :: ys

/-- Embeds the `routing_rules.sort` call of line 85: stable ascending sort
by priority, 999 for a missing priority. -/
def sort_rules : List Rule → List Rule
  | [] => []
  | x :: xs => insert_rule x (sort_rules xs)

/-- The module-level cache globals (lines 9-11): `cached_config` and
`config_last_modified` (a `datetime`, modelled as a `Nat`; Python `datetime`
objects are always truthy). -/
structure CacheState where
  cached_config : Option (List Rule)
  config_last_modified : Option Nat

/-- The guard of line 73:
`cached_config and config_last_modified and last_modified <= config_last_modified`
(`cached_config` is truthy iff it is a non-empty list). -/
def cache_hit (st : CacheState) (last_modified : Nat) : Bool :=
  match st.cached_config, st.config_last_modified with
  | some c, some ts => !c.isEmpty && decide (last_modified ≤ ts)
  | _, _ => false

/-- Embeds `load_routing_config(s3_client)` (lines 60-97).  `head_resp` is the
outcome of `head_object` (`.ok` = its `LastModified`), `doc_resp` the combined
outcome of `get_object` + `json.loads` (`.error` = either raised).  Returns
the rule list, the updated cache globals, and whether `get_object` was
reached (the fetch/parse observable). -/
def load_routing_config (st : CacheState) (head_resp : Except Unit Nat)
    (doc_resp : Except Unit (List Rule)) : List Rule × CacheState × Bool :=
  match head_resp with
  | .error _ => ([], st, false)
  | .ok last_modified =>
    if cache_hit st last_modified then (st.cached_config.getD [], st, false)
    else
      match doc_resp with
      | .error _ => ([], st, true)
      | .ok rules =>
        let sorted := sort_rules rules
        (sorted, ⟨some sorted, some last_modified⟩, true)

/-- Embeds `get_fallback_config()` (lines 99-111); defined in the source but
never called. -/
def get_fallback_config : List Rule :=
  [{ name := "Fallback Punchh"
     priority := some 1
     enabled := none
     pattern_type := some "multi_prefix"
     source_pattern := none
     source_patterns := some ["Punchh/", "punchh/"]
     file_types := some [".csv", ".json"]
     filename_filter := none
     destination_bucket := "vh-punchh-prod"
     destination_pfx := "CheckIns/raw/"
     add_timestamp := none
     delete_source := none
     matched_keyword := none }]

/-! ### Object processing -/

/-- Outcomes of the external S3 calls made for one file, plus the formatted
`datetime.now().strftime` timestamp string (format YYYYMMDD_HHMMSS). -/
structure FileEffects where
  timestamp : String
  copy_result : Except String Unit
  delete_result : Except String Unit

/-- The per-object result dict of `process_file`: `success`, `source`,
`destination`/`error`, `rule_used`, `priority` (as rendered). -/
inductive ProcessingResult where
  | success (source destination rule_used priority_str : String) : ProcessingResult
  | failure (source error : String) : ProcessingResult
deriving DecidableEq

def ProcessingResult.isSuccess : ProcessingResult → Bool
  | .success _ _ _ _ => true
  | .failure _ _ => false

/-- Embeds the priority field of the result dict: the priority of the rule
as rendered, N/A when absent. -/
def priority_str (r : Rule) : String :=
  match r.priority with
  | some p => toString p
  | none => "N/A"

/-- Embeds the destination-filename computation of `process_file` (lines
281-286): split the filename at the last dot into name and ext (ext empty
for a dot-free filename), then produce name + underscore + timestamp,
restoring a dot and ext only when ext is nonempty; with `add_timestamp`
false the filename is unchanged.  `name_part` and `ext_part` are the two
halves of the rsplit. -/
def name_part (filename : String) : String :=
  if pyContainsChar filename '.' then
    pyJoinChar '.' ((pySplitChar '.' filename).dropLast)
  else filename

def ext_part (filename : String) : String :=
  if pyContainsChar filename '.' then (pySplitChar '.' filename).getLastD ""
  else ""

def make_destination_filename (add_ts : Bool) (filename timestamp : String) : String :=
  if add_ts then
    name_part filename ++ "_" ++ timestamp
      ++ (if ext_part filename ≠ "" then "." ++ ext_part filename else "")
  else filename

/-- Embeds `process_file(s3_client, source_bucket, source_key,
destination_info)` (lines 275-338).  Every exception inside the `try` (copy failure, delete
failure) is converted to a failure result; the metadata dict passed to
`copy_object` is write-only external payload and is not modelled. -/
def process_file (source_bucket source_key : String) (destination_info : Rule)
    (eff : FileEffects) : ProcessingResult :=
  let filename := lastSegment source_key
  let destination_filename :=
    make_destination_filename (destination_info.add_timestamp.getD true) filename eff.timestamp
  let destination_key := destination_info.destination_pfx ++ destination_filename
  let source_uri := "s3://" ++ source_bucket ++ "/" ++ source_key
  match eff.copy_result with
  | .error e => .failure source_uri ("Failed to process " ++ source_key ++ ": " ++ e)
  | .ok _ =>
    if destination_info.delete_source.getD false then
      match eff.delete_result with
      | .error e => .failure source_uri ("Failed to process " ++ source_key ++ ": " ++ e)
      | .ok _ =>
        .success source_uri
          ("s3://" ++ destination_info.destination_bucket ++ "/" ++ destination_key)
          destination_info.name (priority_str destination_info)
    else
      .success source_uri
        ("s3://" ++ destination_info.destination_bucket ++ "/" ++ destination_key)
        destination_info.name (priority_str destination_info)

/-! ### The handler -/

/-- One inbound event record; `object_key` is already percent-decoded. -/
structure Record where
  bucket_name : String
  object_key : String

/-- The handler return value (lines 48-58): `statusCode`, and the body fields
`processed_files`, `errors`, `details.successful`, `details.failed`. -/
structure HandlerResult where
  statusCode : Nat
  processed_files : Nat
  errors : Nat
  successful : List ProcessingResult
  failed : List ProcessingResult

/-- The record loop of the handler (lines 22-46).  `i` is the position of
the record, used to index the per-file effects.  An exception escaping
`find_best_destination` propagates (there is no `try` around the loop body). -/
def run_records (oracle : RegexOracle) (config_key : String) (rules : List Rule)
    (effects : Nat → FileEffects) :
    Nat → List Record → Except String (List ProcessingResult × List ProcessingResult)
  | _, [] => .ok ([], [])
  | i, rec :: rest =>
    if rec.object_key = config_key then
      run_records oracle config_key rules effects (i + 1) rest
    else
      match find_best_destination oracle rec.object_key rules with
      | .error e => .error e
      | .ok none => run_records oracle config_key rules effects (i + 1) rest
      | .ok (some rule) =>
        let res := process_file rec.bucket_name rec.object_key rule (effects i)
        match run_records oracle config_key rules effects (i + 1) rest with
        | .error e => .error e
        | .ok (succ, errs) =>
          if res.isSuccess then .ok (res :: succ, errs) else .ok (succ, res :: errs)

/-- Embeds `lambda_handler(event, context)` (lines 13-58).  `env_config_file_key` is
the `CONFIG_FILE_KEY` environment variable (absent → the source default
string). -/
def lambda_handler (oracle : RegexOracle) (env_config_file_key : Option String)
    (st : CacheState) (head_resp : Except Unit Nat) (doc_resp : Except Unit (List Rule))
    (records : List Record) (effects : Nat → FileEffects) : Except String HandlerResult :=
  let routing_rules := (load_routing_config st head_resp doc_resp).1
  let config_key := env_config_file_key.getD "config/routing-rules.json"
  match run_records oracle config_key routing_rules effects 0 records with
  | .error e => .error e
  | .ok (succ, errs) =>
    .ok { statusCode := if errs.length = 0 then 200 else 207
          processed_files := succ.length
          errors := errs.length
          successful := succ
          failed := errs }

/-! ### Spec-side definition for the refinement comparison of claim C8 -/

/-- Formalises the claim wording for the timestamped destination filename:
the suffix is inserted immediately before the last extension (the extension
being the final dot plus what follows it), and a filename with no dot gets
the suffix appended with no trailing dot. -/
def spec_destination_filename (add_ts : Bool) (filename timestamp : String) : String :=
  if add_ts then
    if pyContainsChar filename '.' then
      name_part filename ++ "_" ++ timestamp ++ "." ++ ext_part filename
    else filename ++ "_" ++ timestamp
  else filename

/-! ### Concrete fixtures used by witnesses and counterexamples -/

/-- A trivial regex oracle: every search runs and finds nothing. -/
def oracle0 : RegexOracle := fun _ _ _ => .ok false

/-- A plain well-formed rule. -/
def rule_csv : Rule where
  name := "CSV to Out"
  priority := some 1
  enabled := none
  pattern_type := some "prefix"
  source_pattern := some "Inbox/"
  source_patterns := none
  file_types := some [".csv"]
  filename_filter := none
  destination_bucket := "dst"
  destination_pfx := "Out/"
  add_timestamp := some false
  delete_source := none
  matched_keyword := none

/-- A misconfigured rule: `prefix_with_filename_filter` whose filter dict has
`type: starts_with` but no `value` field. -/
def rule_bad_filter : Rule where
  name := "bad"
  priority := some 1
  enabled := none
  pattern_type := some "prefix_with_filename_filter"
  source_pattern := some "Inbox/"
  source_patterns := none
  file_types := none
  filename_filter := some (.mk (some "starts_with") none none .nil none)
  destination_bucket := "d"
  destination_pfx := ""
  add_timestamp := none
  delete_source := none
  matched_keyword := none

/-- Effects fixture: fixed timestamp, copy and delete succeed. -/
def eff0 : FileEffects where
  timestamp := "20250101_000000"
  copy_result := .ok ()
  delete_result := .ok ()

/-- An oracle for which every search raises `re.error` (an invalid pattern). -/
def oracle_err : RegexOracle := fun _ _ _ => .error "re.error"

/-- A rule with an invalid `pattern_type` (the fallback-config value
`multi_prefix`, which the matcher does not accept). -/
def rule_invalid_pt : Rule where
  name := "invalid-pt"
  priority := some 1
  enabled := none
  pattern_type := some "multi_prefix"
  source_pattern := some "X/"
  source_patterns := none
  file_types := none
  filename_filter := none
  destination_bucket := "d"
  destination_pfx := ""
  add_timestamp := none
  delete_source := none
  matched_keyword := none

/-- A `prefix_with_filename_filter` rule with no `filename_filter` at all. -/
def rule_filter_missing : Rule where
  name := "filter-missing"
  priority := some 1
  enabled := none
  pattern_type := some "prefix_with_filename_filter"
  source_pattern := some "Inbox/"
  source_patterns := none
  file_types := none
  filename_filter := none
  destination_bucket := "d"
  destination_pfx := ""
  add_timestamp := none
  delete_source := none
  matched_keyword := none

/-- Sub-filter `starts_with "A"`. -/
def filter_starts_A : FilterDict := .mk (some "starts_with") none (some "A") .nil none

/-- Sub-filter `ends_with "Z"`. -/
def filter_ends_Z : FilterDict := .mk (some "ends_with") none (some "Z") .nil none

/-- A `multiple_patterns` filter over the two sub-filters above with NO
`match_logic` field. -/
def filter_multi_default : FilterDict :=
  .mk (some "multiple_patterns") none none (.cons filter_starts_A (.cons filter_ends_Z .nil)) none

/-- A rule with default `add_timestamp` (true) used for the timestamping
counterexample. -/
def rule_ts : Rule where
  name := "TS rule"
  priority := some 1
  enabled := none
  pattern_type := some "prefix"
  source_pattern := some "Inbox/"
  source_patterns := none
  file_types := none
  filename_filter := none
  destination_bucket := "dst"
  destination_pfx := "Out/"
  add_timestamp := none
  delete_source := none
  matched_keyword := none

/-- A rule with `delete_source: true`. -/
def rule_del : Rule where
  name := "del rule"
  priority := none
  enabled := none
  pattern_type := some "prefix"
  source_pattern := some "Inbox/"
  source_patterns := none
  file_types := none
  filename_filter := none
  destination_bucket := "dst"
  destination_pfx := "Out/"
  add_timestamp := some false
  delete_source := some true
  matched_keyword := none

/-- Effects fixture: the copy call fails. -/
def eff_copy_fail : FileEffects where
  timestamp := "20250101_000000"
  copy_result := .error "AccessDenied"
  delete_result := .ok ()

/-- Effects fixture: the copy succeeds and the delete fails. -/
def eff_del_fail : FileEffects where
  timestamp := "20250101_000000"
  copy_result := .ok ()
  delete_result := .error "AccessDenied"

/-! ## Helper lemmas -/

theorem pySplitCharAux_ne_nil (c : Char) (l : List Char) : pySplitCharAux c l ≠ [] := by
  induction l with
  | nil => simp [pySplitCharAux]
  | cons x xs ih =>
    unfold pySplitCharAux
    split
    · simp
    · split
      · simp
      · simp

theorem pyJoinCharAux_cons₂ (c : Char) (p : List Char) (ps : List (List Char)) (h : ps ≠ []) :
    pyJoinCharAux c (p :: ps) = p ++ c :: pyJoinCharAux c ps := by
  cases ps with
  | nil => exact absurd rfl h
  | cons q qs => rfl

theorem pySplitCharAux_not_contains (c : Char) (l : List Char) (h : l.contains c = false) :
    pySplitCharAux c l = [l] := by
  induction l with
  | nil => rfl
  | cons x xs ih =>
    simp only [List.contains_cons, Bool.or_eq_false_iff, beq_eq_false_iff_ne, ne_eq] at h
    unfold pySplitCharAux
    rw [if_neg (fun hh => h.1 hh.symm), ih h.2]

theorem pySplitCharAux_len2 (c : Char) (l : List Char) (h : l.contains c = true) :
    2 ≤ (pySplitCharAux c l).length := by
  induction l with
  | nil => simp at h
  | cons x xs ih =>
    unfold pySplitCharAux
    by_cases hx : x = c
    · rw [if_pos hx]
      have := pySplitCharAux_ne_nil c xs
      have hlen : 1 ≤ (pySplitCharAux c xs).length := by
        cases hh : pySplitCharAux c xs with
        | nil => exact absurd hh this
        | cons a as => simp
      simpa using hlen
    · rw [if_neg hx]
      simp only [List.contains_cons, Bool.or_eq_true_iff, beq_iff_eq] at h
      rcases h with h | h
      · exact absurd h.symm hx
      · have := ih h
        cases hh : pySplitCharAux c xs with
        | nil => exact absurd hh (pySplitCharAux_ne_nil c xs)
        | cons p ps =>
          rw [hh] at this
          simpa using this

theorem pyJoinCharAux_dropLast (c : Char) (ps : List (List Char)) (h : 2 ≤ ps.length) :
    pyJoinCharAux c ps.dropLast ++ c :: ps.getLastD [] = pyJoinCharAux c ps := by
  induction ps with
  | nil => simp at h
  | cons p qs ih =>
    cases qs with
    | nil => simp at h
    | cons q t =>
      cases t with
      | nil => rfl
      | cons q' t' =>
        have h2 : 2 ≤ (q :: q' :: t').length := by simp
        have hne : (q :: q' :: t').dropLast ≠ [] := by
          cases t' <;> simp
        calc pyJoinCharAux c (p :: q :: q' :: t').dropLast ++ c :: (p :: q :: q' :: t').getLastD []
            = pyJoinCharAux c (p :: (q :: q' :: t').dropLast) ++ c :: (q :: q' :: t').getLastD [] := by
              simp [List.getLastD_cons]
          _ = (p ++ c :: pyJoinCharAux c (q :: q' :: t').dropLast) ++ c :: (q :: q' :: t').getLastD [] := by
              rw [pyJoinCharAux_cons₂ c _ _ hne]
          _ = p ++ c :: (pyJoinCharAux c (q :: q' :: t').dropLast ++ c :: (q :: q' :: t').getLastD []) := by
              simp
          _ = p ++ c :: pyJoinCharAux c (q :: q' :: t') := by rw [ih h2]
          _ = pyJoinCharAux c (p :: q :: q' :: t') := rfl

theorem pyJoinCharAux_split (c : Char) (l : List Char) :
    pyJoinCharAux c (pySplitCharAux c l) = l := by
  induction l with
  | nil => rfl
  | cons x xs ih =>
    unfold pySplitCharAux
    by_cases hx : x = c
    · rw [if_pos hx]
      cases hh : pySplitCharAux c xs with
      | nil => exact absurd hh (pySplitCharAux_ne_nil c xs)
      | cons p ps =>
        rw [hh] at ih
        subst hx
        calc pyJoinCharAux x ([] :: p :: ps) = [] ++ x :: pyJoinCharAux x (p :: ps) := rfl
          _ = x :: xs := by rw [ih]; rfl
    · rw [if_neg hx]
      cases hh : pySplitCharAux c xs with
      | nil => exact absurd hh (pySplitCharAux_ne_nil c xs)
      | cons p ps =>
        rw [hh] at ih
        cases ps with
        | nil => simpa [pyJoinCharAux] using ih
        | cons q t =>
          calc pyJoinCharAux c ((x :: p) :: q :: t) = (x :: p) ++ c :: pyJoinCharAux c (q :: t) := rfl
            _ = x :: (p ++ c :: pyJoinCharAux c (q :: t)) := by simp
            _ = x :: pyJoinCharAux c (p :: q :: t) := rfl
            _ = x :: xs := by rw [ih]

theorem getLastD_congr {α : Type} (ps : List α) (d₁ d₂ : α) (h : ps ≠ []) :
    ps.getLastD d₁ = ps.getLastD d₂ := by
  cases ps with
  | nil => exact absurd rfl h
  | cons x t => rw [List.getLastD_cons, List.getLastD_cons]

theorem getLastD_map_mk (ps : List (List Char)) (h : ps ≠ []) :
    (ps.map String.mk).getLastD "" = ⟨ps.getLastD []⟩ := by
  induction ps with
  | nil => exact absurd rfl h
  | cons p t ih =>
    cases t with
    | nil => simp [List.getLastD_cons]
    | cons q t' =>
      have hne : q :: t' ≠ [] := by simp
      calc ((p :: q :: t').map String.mk).getLastD ""
          = ((q :: t').map String.mk).getLastD ⟨p⟩ := by
            rw [List.map_cons, List.getLastD_cons]
        _ = ((q :: t').map String.mk).getLastD "" := getLastD_congr _ _ _ (by simp)
        _ = ⟨(q :: t').getLastD []⟩ := ih hne
        _ = ⟨(p :: q :: t').getLastD []⟩ := by
            rw [List.getLastD_cons, List.getLastD_cons, List.getLastD_cons]

/-- Recomposition: the folder path followed by the final segment is the key
itself (so `sourceFolder` is exactly the key with its final segment removed,
trailing separator retained). -/
theorem sourceFolder_append_lastSegment (k : String) :
    sourceFolder k ++ lastSegment k = k := by
  obtain ⟨l⟩ := k
  unfold sourceFolder lastSegment pySplitChar pyJoinChar pyContainsChar
  by_cases h : l.contains '/'
  · rw [if_pos (by simpa using h)]
    have h2 : 2 ≤ (pySplitCharAux '/' l).length := pySplitCharAux_len2 '/' l (by simpa using h)
    have hne : pySplitCharAux '/' l ≠ [] := pySplitCharAux_ne_nil '/' l
    have hcomp : String.data ∘ String.mk = id := rfl
    have hdl : ((pySplitCharAux '/' l).map String.mk).dropLast.map String.data
        = (pySplitCharAux '/' l).dropLast := by
      rw [← List.map_dropLast, List.map_map, hcomp, List.map_id]
    have hlast : ((pySplitCharAux '/' l).map String.mk).getLastD ""
        = ⟨(pySplitCharAux '/' l).getLastD []⟩ := getLastD_map_mk _ hne
    rw [hdl, hlast]
    show String.mk (pyJoinCharAux '/' (pySplitCharAux '/' l).dropLast ++ '/' :: []
        ++ (pySplitCharAux '/' l).getLastD []) = String.mk l
    have := pyJoinCharAux_dropLast '/' (pySplitCharAux '/' l) h2
    have hsj := pyJoinCharAux_split '/' l
    congr 1
    calc pyJoinCharAux '/' (pySplitCharAux '/' l).dropLast ++ '/' :: []
          ++ (pySplitCharAux '/' l).getLastD []
        = pyJoinCharAux '/' (pySplitCharAux '/' l).dropLast
          ++ '/' :: (pySplitCharAux '/' l).getLastD [] := by simp
      _ = pyJoinCharAux '/' (pySplitCharAux '/' l) := this
      _ = l := hsj
  · rw [if_neg (by simpa using h)]
    rw [pySplitCharAux_not_contains '/' l (by simpa using h)]
    show String.mk ([] ++ l) = String.mk l
    simp

theorem sourceFolder_no_sep (k : String) (h : pyContainsChar k '/' = false) :
    sourceFolder k = "" := by
  unfold sourceFolder
  rw [if_neg (by simp [h])]

theorem find_first_match_none_iff (oracle : RegexOracle) (k fn : String) (rs : List Rule) :
    find_first_match oracle k fn rs = .ok none ↔
      ∀ r ∈ rs, matches_rule oracle k fn r = .ok false := by
  induction rs with
  | nil => simp [find_first_match]
  | cons a rs ih =>
    unfold find_first_match
    cases h : matches_rule oracle k fn a with
    | error e =>
      simp only [List.mem_cons]
      constructor
      · intro hc; exact absurd hc (by simp)
      · intro hall
        have := hall a (Or.inl rfl)
        rw [h] at this
        exact absurd this (by simp)
    | ok b =>
      cases b with
      | true =>
        simp only [List.mem_cons]
        constructor
        · intro hc; exact absurd hc (by simp)
        · intro hall
          have := hall a (Or.inl rfl)
          rw [h] at this
          exact absurd this (by simp)
      | false =>
        simp only [List.mem_cons, ih]
        constructor
        · intro hall r hr
          rcases hr with rfl | hr
          · exact h
          · exact hall r hr
        · intro hall r hr
          exact hall r (Or.inr hr)

theorem find_first_match_some_iff (oracle : RegexOracle) (k fn : String) (rs : List Rule)
    (r : Rule) :
    find_first_match oracle k fn rs = .ok (some r) ↔
      ∃ pre post, rs = pre ++ r :: post
        ∧ (∀ p ∈ pre, matches_rule oracle k fn p = .ok false)
        ∧ matches_rule oracle k fn r = .ok true := by
  induction rs with
  | nil =>
    simp only [find_first_match]
    constructor
    · intro hc; exact absurd hc (by simp)
    · rintro ⟨pre, post, heq, -, -⟩
      exact absurd heq.symm (List.append_ne_nil_of_right_ne_nil pre (by simp))
  | cons a rs ih =>
    unfold find_first_match
    cases h : matches_rule oracle k fn a with
    | error e =>
      constructor
      · intro hc; exact absurd hc (by simp)
      · rintro ⟨pre, post, heq, hpre, hr⟩
        cases pre with
        | nil =>
          simp only [List.nil_append, List.cons.injEq] at heq
          rw [heq.1] at h
          rw [h] at hr
          exact absurd hr (by simp)
        | cons b pre' =>
          simp only [List.cons_append, List.cons.injEq] at heq
          have := hpre b (by simp)
          rw [← heq.1] at this
          rw [h] at this
          exact absurd this (by simp)
    | ok bv =>
      cases bv with
      | true =>
        constructor
        · intro hc
          simp only [Except.ok.injEq, Option.some.injEq] at hc
          exact ⟨[], rs, by rw [hc]; simp, by simp, by rw [← hc]; exact h⟩
        · rintro ⟨pre, post, heq, hpre, hr⟩
          cases pre with
          | nil =>
            simp only [List.nil_append, List.cons.injEq] at heq
            rw [heq.1]
          | cons b pre' =>
            simp only [List.cons_append, List.cons.injEq] at heq
            have := hpre b (by simp)
            rw [← heq.1] at this
            rw [h] at this
            exact absurd this (by simp)
      | false =>
        rw [ih]
        constructor
        · rintro ⟨pre, post, heq, hpre, hr⟩
          refine ⟨a :: pre, post, by rw [heq]; simp, ?_, hr⟩
          intro p hp
          rcases List.mem_cons.mp hp with rfl | hp
          · exact h
          · exact hpre p hp
        · rintro ⟨pre, post, heq, hpre, hr⟩
          cases pre with
          | nil =>
            simp only [List.nil_append, List.cons.injEq] at heq
            rw [heq.1] at h
            rw [h] at hr
            exact absurd hr (by simp)
          | cons b pre' =>
            simp only [List.cons_append, List.cons.injEq] at heq
            exact ⟨pre', post, heq.2, fun p hp => hpre p (by simp [hp]), hr⟩

theorem mem_insert_rule (x a : Rule) (l : List Rule) :
    a ∈ insert_rule x l ↔ a = x ∨ a ∈ l := by
  induction l with
  | nil => simp [insert_rule]
  | cons y ys ih =>
    unfold insert_rule
    by_cases h : ruleKey y < ruleKey x
    · rw [if_pos h]
      rw [List.mem_cons, ih, List.mem_cons]
      tauto
    · rw [if_neg h]
      rw [List.mem_cons, List.mem_cons]

theorem insert_rule_pairwise (x : Rule) (l : List Rule)
    (h : List.Pairwise (fun a b => ruleKey a ≤ ruleKey b) l) :
    List.Pairwise (fun a b => ruleKey a ≤ ruleKey b) (insert_rule x l) := by
  induction l with
  | nil => simp [insert_rule]
  | cons y ys ih =>
    rcases List.pairwise_cons.mp h with ⟨hy, hys⟩
    unfold insert_rule
    by_cases hlt : ruleKey y < ruleKey x
    · rw [if_pos hlt]
      refine List.pairwise_cons.mpr ⟨?_, ih hys⟩
      intro b hb
      rcases (mem_insert_rule x b ys).mp hb with rfl | hb
      · exact le_of_lt hlt
      · exact hy b hb
    · rw [if_neg hlt]
      refine List.pairwise_cons.mpr ⟨?_, h⟩
      intro b hb
      rcases List.mem_cons.mp hb with rfl | hb
      · exact le_of_not_lt hlt
      · exact le_trans (le_of_not_lt hlt) (hy b hb)

theorem insert_rule_perm (x : Rule) (l : List Rule) :
    List.Perm (insert_rule x l) (x :: l) := by
  induction l with
  | nil => simp [insert_rule]
  | cons y ys ih =>
    unfold insert_rule
    by_cases hlt : ruleKey y < ruleKey x
    · rw [if_pos hlt]
      exact List.Perm.trans (List.Perm.cons y ih) (List.Perm.swap x y ys)
    · rw [if_neg hlt]

theorem insert_rule_filter (x : Rule) (l : List Rule) (q : Int) :
    (insert_rule x l).filter (fun r => ruleKey r == q)
      = (if ruleKey x = q then [x] else []) ++ l.filter (fun r => ruleKey r == q) := by
  induction l with
  | nil =>
    by_cases hq : ruleKey x = q
    · simp [insert_rule, List.filter_cons, hq]
    · simp [insert_rule, List.filter_cons, hq]
  | cons y ys ih =>
    unfold insert_rule
    by_cases hlt : ruleKey y < ruleKey x
    · rw [if_pos hlt]
      by_cases hyq : ruleKey y = q
      · have hq : ruleKey x ≠ q := by
          intro hq
          rw [hyq] at hlt
          rw [hq] at hlt
          exact lt_irrefl q hlt
        rw [List.filter_cons_of_pos (by simp [hyq]), ih, if_neg hq,
          List.filter_cons_of_pos (by simp [hyq])]
        simp
      · rw [List.filter_cons_of_neg (by simp [hyq]), ih,
          List.filter_cons_of_neg (by simp [hyq])]
    · rw [if_neg hlt]
      by_cases hq : ruleKey x = q
      · rw [if_pos hq, List.filter_cons_of_pos (by simp [hq])]
        simp
      · rw [if_neg hq, List.filter_cons_of_neg (by simp [hq])]
        simp

theorem sort_rules_pairwise (l : List Rule) :
    List.Pairwise (fun a b => ruleKey a ≤ ruleKey b) (sort_rules l) := by
  induction l with
  | nil => simp [sort_rules]
  | cons x xs ih =>
    show List.Pairwise (fun a b => ruleKey a ≤ ruleKey b) (insert_rule x (sort_rules xs))
    exact insert_rule_pairwise x (sort_rules xs) ih

theorem sort_rules_perm (l : List Rule) : List.Perm (sort_rules l) l := by
  induction l with
  | nil => simp [sort_rules]
  | cons x xs ih =>
    show List.Perm (insert_rule x (sort_rules xs)) (x :: xs)
    exact List.Perm.trans (insert_rule_perm x (sort_rules xs)) (List.Perm.cons x ih)

theorem sort_rules_filter (l : List Rule) (q : Int) :
    (sort_rules l).filter (fun r => ruleKey r == q) = l.filter (fun r => ruleKey r == q) := by
  induction l with
  | nil => rfl
  | cons x xs ih =>
    show (insert_rule x (sort_rules xs)).filter (fun r => ruleKey r == q) = _
    rw [insert_rule_filter, ih]
    by_cases hq : ruleKey x = q
    · rw [if_pos hq, List.filter_cons_of_pos (by simp [hq])]
      simp
    · rw [if_neg hq, List.filter_cons_of_neg (by simp [hq])]
      simp

theorem find_best_destination_nil (oracle : RegexOracle) (k : String) :
    find_best_destination oracle k [] = .ok none := by
  unfold find_best_destination
  by_cases h : (pyStartsWith (lastSegment k) "." || pyEndsWith k "/") = true
  · rw [if_pos h]
  · rw [if_neg h]
    rfl

theorem run_records_nil_rules (oracle : RegexOracle) (ck : String)
    (effects : Nat → FileEffects) :
    ∀ (recs : List Record) (i : Nat),
      run_records oracle ck [] effects i recs = .ok ([], []) := by
  intro recs
  induction recs with
  | nil => intro i; rfl
  | cons rec rest ih =>
    intro i
    by_cases h : rec.object_key = ck
    · simp only [run_records, if_pos h]
      exact ih (i + 1)
    · simp only [run_records, if_neg h, find_best_destination_nil]
      exact ih (i + 1)

theorem run_records_shift (oracle : RegexOracle) (ck : String) (rules : List Rule)
    (effects : Nat → FileEffects) :
    ∀ (recs : List Record) (i : Nat),
      run_records oracle ck rules (fun j => effects (j + 1)) i recs
        = run_records oracle ck rules effects (i + 1) recs := by
  intro recs
  induction recs with
  | nil => intro i; rfl
  | cons rec rest ih =>
    intro i
    by_cases h : rec.object_key = ck
    · simp only [run_records, if_pos h]
      exact ih (i + 1)
    · simp only [run_records, if_neg h]
      cases hfb : find_best_destination oracle rec.object_key rules with
      | error e => rfl
      | ok o =>
        cases o with
        | none => rw [ih (i + 1)]
        | some rule => rw [ih (i + 1)]

theorem run_records_ok_of_resolved (oracle : RegexOracle) (ck : String) (rules : List Rule)
    (effects : Nat → FileEffects) :
    ∀ (recs : List Record) (i : Nat),
      (∀ rec ∈ recs, ∃ o, find_best_destination oracle rec.object_key rules = .ok o) →
      ∃ s f, run_records oracle ck rules effects i recs = .ok (s, f)
        ∧ (∀ x ∈ s, x.isSuccess = true) ∧ (∀ x ∈ f, x.isSuccess = false) := by
  intro recs
  induction recs with
  | nil => exact fun i _ => ⟨[], [], rfl, by simp, by simp⟩
  | cons rec rest ih =>
    intro i hall
    obtain ⟨s, f, hrun, hs, hf⟩ := ih (i + 1) (fun r hr => hall r (List.mem_cons_of_mem rec hr))
    by_cases h : rec.object_key = ck
    · simp only [run_records, if_pos h]
      exact ⟨s, f, hrun, hs, hf⟩
    · obtain ⟨o, ho⟩ := hall rec (List.mem_cons_self rec rest)
      simp only [run_records, if_neg h, ho]
      cases o with
      | none => exact ⟨s, f, hrun, hs, hf⟩
      | some rule =>
        rw [hrun]
        dsimp only
        cases hres : (process_file rec.bucket_name rec.object_key rule (effects i)).isSuccess with
        | true =>
          refine ⟨process_file rec.bucket_name rec.object_key rule (effects i) :: s, f,
            by rw [if_pos rfl], ?_, hf⟩
          intro x hx
          rcases List.mem_cons.mp hx with rfl | hx
          · exact hres
          · exact hs x hx
        | false =>
          refine ⟨s, process_file rec.bucket_name rec.object_key rule (effects i) :: f,
            by rw [if_neg Bool.false_ne_true], hs, ?_⟩
          intro x hx
          rcases List.mem_cons.mp hx with rfl | hx
          · exact hres
          · exact hf x hx

/-! ## Claim theorems -/

/-- Claim C7: the file-type gate accepts everything when `allowed_types` is
empty; otherwise it accepts exactly when the extension — the final dot plus
what follows the last dot, `""` for a dot-free filename — occurs in the list
under case-insensitive comparison of both sides; in particular `a.CSV` passes
`[".csv"]`. -/
theorem C7_file_type_gate (fn : String) (ts : List String) :
    (ts = [] → check_file_type fn ts = true)
    ∧ (check_file_type fn ts = true ↔ (ts = [] ∨ pyLower (file_ext fn) ∈ ts.map pyLower))
    ∧ (pyContainsChar fn '.' = false → file_ext fn = "")
    ∧ (pyContainsChar fn '.' = true → file_ext fn = "." ++ (pySplitChar '.' fn).getLastD "")
    ∧ check_file_type "a.CSV" [".csv"] = true := by
  refine ⟨?_, ?_, ?_, ?_, by decide⟩
  · intro h
    rw [check_file_type, if_pos h]
  · unfold check_file_type
    by_cases h : ts = []
    · rw [if_pos h]
      simp [h]
    · rw [if_neg h]
      constructor
      · intro hc
        exact Or.inr (List.elem_iff.mp hc)
      · intro hor
        rcases hor with h0 | hm
        · exact absurd h0 h
        · exact List.elem_iff.mpr hm
  · intro h
    rw [file_ext, if_neg (by rw [h]; exact Bool.false_ne_true)]
  · intro h
    rw [file_ext, if_pos h]

theorem C7_file_type_gate_witness :
    check_file_type "Data.CSV" [".csv"] = true ∧ file_ext "nodots" = "" :=
  ⟨(C7_file_type_gate "Data.CSV" [".csv"]).2.1.mpr (Or.inr (by decide)),
   (C7_file_type_gate "nodots" []).2.2.1 (by decide)⟩

/-- Claim C1: `find_best_destination` returns `none` immediately — for every
rule list, matching included a throwing one — when the filename starts with
`.` or the key ends with `/`; otherwise it returns exactly the first rule (in
list order) whose matcher returns true, and `none` iff the matcher of every rule
returns false (so also for the empty list). -/
theorem C1_resolver_first_match (oracle : RegexOracle) (k : String) (rules : List Rule) :
    ((pyStartsWith (lastSegment k) "." || pyEndsWith k "/") = true →
      find_best_destination oracle k rules = .ok none)
    ∧ ((pyStartsWith (lastSegment k) "." || pyEndsWith k "/") = false →
      ((find_best_destination oracle k rules = .ok none ↔
        ∀ r ∈ rules, matches_rule oracle k (lastSegment k) r = .ok false)
      ∧ ∀ r : Rule, (find_best_destination oracle k rules = .ok (some r) ↔
        ∃ pre post, rules = pre ++ r :: post
          ∧ (∀ p ∈ pre, matches_rule oracle k (lastSegment k) p = .ok false)
          ∧ matches_rule oracle k (lastSegment k) r = .ok true))) := by
  constructor
  · intro h
    unfold find_best_destination
    rw [if_pos h]
  · intro h
    unfold find_best_destination
    rw [if_neg (by rw [h]; exact Bool.false_ne_true)]
    exact ⟨find_first_match_none_iff oracle k (lastSegment k) rules,
      fun r => find_first_match_some_iff oracle k (lastSegment k) rules r⟩

theorem C1_resolver_first_match_witness :
    find_best_destination oracle0 ".keep" [rule_bad_filter] = .ok none
    ∧ find_best_destination oracle0 "Inbox/data.csv" [rule_csv] = .ok (some rule_csv) :=
  ⟨(C1_resolver_first_match oracle0 ".keep" [rule_bad_filter]).1 (by decide),
   (((C1_resolver_first_match oracle0 "Inbox/data.csv" [rule_csv]).2 (by decide)).2 rule_csv).mpr
     ⟨[], [], rfl, by simp, by decide⟩⟩

/-- Claim C2: the matcher returns true iff the rule is enabled, the file-type
gate passes, the (defaulted) `pattern_type` is exactly `prefix` or
`prefix_with_filename_filter`, the folder path of the key equals `source_pattern`
by string equality, and — for `prefix_with_filename_filter` — the filename
filter accepts; together with the characterisation of the folder path as
everything before the final segment (trailing `/` retained, `""` for a key
with no `/`). -/
theorem C2_matcher_characterization (oracle : RegexOracle) (k fn : String) (r : Rule) :
    (matches_rule oracle k fn r = .ok true ↔
      (r.enabled.getD true = true
        ∧ check_file_type fn (r.file_types.getD []) = true
        ∧ (r.pattern_type.getD "prefix" = "prefix"
            ∨ r.pattern_type.getD "prefix" = "prefix_with_filename_filter")
        ∧ sourceFolder k = r.source_pattern.getD ""
        ∧ (r.pattern_type.getD "prefix" = "prefix_with_filename_filter" →
            check_filename_filter oracle fn (r.filename_filter.getD FilterDict.empty) = .ok true)))
    ∧ sourceFolder k ++ lastSegment k = k
    ∧ (pyContainsChar k '/' = false → sourceFolder k = "") := by
  refine ⟨?_, sourceFolder_append_lastSegment k, sourceFolder_no_sep k⟩
  unfold matches_rule
  by_cases h1 : r.enabled.getD true = false
  · rw [if_pos h1]
    simp [h1]
  · rw [if_neg h1]
    have h1' : r.enabled.getD true = true := by
      cases hb : r.enabled.getD true
      · exact absurd hb h1
      · rfl
    by_cases h2 : check_file_type fn (r.file_types.getD []) = false
    · rw [if_pos h2]
      simp [h2]
    · rw [if_neg h2]
      have h2' : check_file_type fn (r.file_types.getD []) = true := by
        cases hb : check_file_type fn (r.file_types.getD [])
        · exact absurd hb h2
        · rfl
      dsimp only
      by_cases h3 : (r.pattern_type.getD "prefix" = "prefix_with_filename_filter"
          ∨ r.pattern_type.getD "prefix" = "prefix")
          ∧ sourceFolder k = r.source_pattern.getD ""
      · rw [if_pos h3]
        by_cases h4 : r.pattern_type.getD "prefix" = "prefix_with_filename_filter"
        · rw [if_pos h4]
          constructor
          · intro hcf
            exact ⟨h1', h2', Or.inr h4, h3.2, fun _ => hcf⟩
          · rintro ⟨-, -, -, -, himp⟩
            exact himp h4
        · rw [if_neg h4]
          constructor
          · intro _
            refine ⟨h1', h2', ?_, h3.2, fun hh => absurd hh h4⟩
            rcases h3.1 with hh | hh
            · exact absurd hh h4
            · exact Or.inl hh
          · intro _
            rfl
      · rw [if_neg h3]
        constructor
        · intro hc
          exact absurd hc (by simp)
        · rintro ⟨-, -, hvalid, hfold, -⟩
          exact absurd ⟨hvalid.symm, hfold⟩ h3

theorem C2_matcher_characterization_witness :
    matches_rule oracle0 "Inbox/data.csv" "data.csv" rule_csv = .ok true :=
  (C2_matcher_characterization oracle0 "Inbox/data.csv" "data.csv" rule_csv).1.mpr
    ⟨by decide, by decide, Or.inl (by decide), by decide, fun hh => absurd hh (by decide)⟩

/-- Claim C3 counterexample: a rule whose filename filter is
`type: starts_with` with the required `value` field missing raises a
`KeyError` out of rule matching on a key it is evaluated against, instead of
evaluating to false without an exception as the claim states. -/
theorem C3_counterexample :
    matches_rule oracle0 "Inbox/a.csv" "a.csv" rule_bad_filter = .error "KeyError: value" := by
  decide

/-- Claim C3 as amended: a rule with an invalid `pattern_type` indeed never
matches and never raises; but a filename filter of a recognised
value-carrying type whose `value` field is missing raises a `KeyError` that
propagates out of filter evaluation (and hence out of rule matching,
aborting the invocation), an `re.error` from an invalid regex pattern
propagates likewise, and a `prefix_with_filename_filter` rule whose
`filename_filter` is missing entirely matches (the absent filter accepts)
rather than failing. -/
theorem C3_amended_misconfigured (oracle : RegexOracle) (k fn : String) (r : Rule)
    (cs : Option Bool) (pats : FilterList) (ml : Option String) (t pat e : String) :
    (r.pattern_type.getD "prefix" ≠ "prefix" →
      r.pattern_type.getD "prefix" ≠ "prefix_with_filename_filter" →
      matches_rule oracle k fn r = .ok false)
    ∧ (t ∈ ["starts_with", "not_starts_with", "ends_with", "contains", "regex"] →
      check_filename_filter oracle fn (.mk (some t) cs none pats ml) = .error "KeyError: value")
    ∧ (oracle pat fn (cs.getD false) = .error e →
      check_filename_filter oracle fn (.mk (some "regex") cs (some pat) pats ml) = .error e)
    ∧ (r.pattern_type.getD "prefix" = "prefix_with_filename_filter" →
      r.filename_filter = none →
      r.enabled.getD true = true →
      check_file_type fn (r.file_types.getD []) = true →
      sourceFolder k = r.source_pattern.getD "" →
      matches_rule oracle k fn r = .ok true) := by
  refine ⟨?_, ?_, ?_, ?_⟩
  · intro hp hpw
    unfold matches_rule
    by_cases h1 : r.enabled.getD true = false
    · rw [if_pos h1]
    · rw [if_neg h1]
      by_cases h2 : check_file_type fn (r.file_types.getD []) = false
      · rw [if_pos h2]
      · rw [if_neg h2]
        dsimp only
        rw [if_neg ?_]
        rintro ⟨hv, -⟩
        rcases hv with hv | hv
        · exact hpw hv
        · exact hp hv
  · intro ht
    simp only [List.mem_cons, List.not_mem_nil, or_false] at ht
    rcases ht with rfl | rfl | rfl | rfl | rfl
    · simp [check_filename_filter, FilterDict.isEmpty, FilterDict.ftype,
        FilterDict.case_sensitive, FilterDict.value, FilterDict.patterns,
        FilterDict.match_logic, FilterList.isNil]
    · simp [check_filename_filter, FilterDict.isEmpty, FilterDict.ftype,
        FilterDict.case_sensitive, FilterDict.value, FilterDict.patterns,
        FilterDict.match_logic, FilterList.isNil]
    · simp [check_filename_filter, FilterDict.isEmpty, FilterDict.ftype,
        FilterDict.case_sensitive, FilterDict.value, FilterDict.patterns,
        FilterDict.match_logic, FilterList.isNil]
    · simp [check_filename_filter, FilterDict.isEmpty, FilterDict.ftype,
        FilterDict.case_sensitive, FilterDict.value, FilterDict.patterns,
        FilterDict.match_logic, FilterList.isNil]
    · simp [check_filename_filter, FilterDict.isEmpty, FilterDict.ftype,
        FilterDict.case_sensitive, FilterDict.value, FilterDict.patterns,
        FilterDict.match_logic, FilterList.isNil]
  · intro ho
    simp only [check_filename_filter, FilterDict.isEmpty, FilterDict.ftype,
      FilterDict.case_sensitive, FilterDict.value, FilterDict.patterns,
      FilterDict.match_logic, FilterList.isNil]
    simp [ho]
  · intro hpt hff hen hgate hfold
    unfold matches_rule
    rw [if_neg (by simp [hen]), if_neg (by simp [hgate])]
    dsimp only
    rw [if_pos ⟨Or.inl hpt, hfold⟩, if_pos hpt, hff]
    rfl

theorem C3_amended_misconfigured_witness :
    matches_rule oracle0 "X/a.csv" "a.csv" rule_invalid_pt = .ok false
    ∧ check_filename_filter oracle0 "a.csv" (.mk (some "contains") none none .nil none)
        = .error "KeyError: value"
    ∧ check_filename_filter oracle_err "f.txt" (.mk (some "regex") none (some "(") .nil none)
        = .error "re.error"
    ∧ matches_rule oracle0 "Inbox/a.csv" "a.csv" rule_filter_missing = .ok true :=
  ⟨(C3_amended_misconfigured oracle0 "X/a.csv" "a.csv" rule_invalid_pt none .nil none
      "t" "p" "e").1 (by decide) (by decide),
   (C3_amended_misconfigured oracle0 "k" "a.csv" rule_invalid_pt none .nil none
      "contains" "p" "e").2.1 (by decide),
   (C3_amended_misconfigured oracle_err "k" "f.txt" rule_invalid_pt none .nil none
      "t" "(" "re.error").2.2.1 rfl,
   (C3_amended_misconfigured oracle0 "Inbox/a.csv" "a.csv" rule_filter_missing none .nil none
      "t" "p" "e").2.2.2 (by decide) rfl (by decide) (by decide) (by decide)⟩

/-- Claim C6 counterexample: with `match_logic` ABSENT, a `multiple_patterns`
filter over `[starts_with "A", ends_with "Z"]` accepts `Alpha.txt` — the code
defaults the combinator to OR (`any`) — even though one of the sub-filters
(`ends_with "Z"`) rejects it, so the claimed default of AND (which would
yield false here) is wrong. -/
theorem C6_counterexample :
    check_filename_filter oracle0 "Alpha.txt" filter_multi_default = .ok true
    ∧ check_filename_filter oracle0 "Alpha.txt" filter_ends_Z = .ok false := by
  constructor
  · decide
  · decide

/-- Claim C6 as amended: `multiple_patterns` evaluates every nested filter in
order and combines the results with OR when `match_logic` is `any` OR when it
is absent (the source defaults `match_logic` to `any`), and with AND for any
other explicit value. -/
theorem C6_amended_multiple_patterns (oracle : RegexOracle) (fn : String)
    (cs : Option Bool) (v : Option String) (pats : FilterList) (ml : Option String)
    (results : List Bool)
    (h : check_filter_list oracle fn pats = .ok results) :
    check_filename_filter oracle fn (.mk (some "multiple_patterns") cs v pats ml)
      = .ok (if ml.getD "any" = "any" then results.any id else results.all id)
    ∧ check_filename_filter oracle fn (.mk (some "multiple_patterns") cs v pats none)
      = .ok (results.any id)
    ∧ (∀ s : String, s ≠ "any" →
      check_filename_filter oracle fn (.mk (some "multiple_patterns") cs v pats (some s))
        = .ok (results.all id)) := by
  have main : ∀ ml' : Option String,
      check_filename_filter oracle fn (.mk (some "multiple_patterns") cs v pats ml')
        = .ok (if ml'.getD "any" = "any" then results.any id else results.all id) := by
    intro ml'
    simp only [check_filename_filter, FilterDict.isEmpty, FilterDict.ftype,
      FilterDict.case_sensitive, FilterDict.value, FilterDict.patterns,
      FilterDict.match_logic, FilterList.isNil]
    simp [h]
  refine ⟨main ml, ?_, ?_⟩
  · rw [main none]
    simp
  · intro s hs
    rw [main (some s)]
    simp [hs]

theorem C6_amended_multiple_patterns_witness :
    check_filename_filter oracle0 "Alpha.txt"
      (.mk (some "multiple_patterns") none none
        (.cons filter_starts_A (.cons filter_ends_Z .nil)) (some "all")) = .ok false := by
  have := (C6_amended_multiple_patterns oracle0 "Alpha.txt" none none
    (.cons filter_starts_A (.cons filter_ends_Z .nil)) (some "all") [true, false]
    (by decide)).2.2 "all" (by decide)
  exact this

/-- Claim C8 counterexample: for a source filename ending in a dot (empty
last extension, e.g. `a.`), the code DROPS the trailing dot —
`a_<ts>` — whereas inserting the suffix immediately before the last
extension as the claim states would keep it (`a_<ts>.`); exhibited both on
the filename computation and on a full `process_file` run. -/
theorem C8_counterexample :
    make_destination_filename true "a." "20250101_000000" = "a_20250101_000000"
    ∧ spec_destination_filename true "a." "20250101_000000" = "a_20250101_000000."
    ∧ make_destination_filename true "a." "20250101_000000"
        ≠ spec_destination_filename true "a." "20250101_000000"
    ∧ process_file "b" "Inbox/a." rule_ts eff0 = .success "s3://b/Inbox/a."
        "s3://dst/Out/a_20250101_000000" "TS rule" "1" :=
  ⟨by decide, by decide, by decide, rfl⟩

/-- Claim C8 as amended: with `add_timestamp` false the filename is unchanged;
with it true (also when absent) the `_<ts>` suffix goes immediately before
the last extension when that extension is nonempty, is appended for a
dot-free filename, and for a filename ENDING in a dot the trailing dot is
dropped (`name_<ts>` rather than `name_<ts>.`); the destination key is the
plain concatenation `destination_prefix ++ destinationFilename`, as visible
in the success result of `process_file`. -/
theorem C8_amended_destination (fn ts b k : String) (d : Rule) (eff : FileEffects) :
    make_destination_filename false fn ts = fn
    ∧ (pyContainsChar fn '.' = false → make_destination_filename true fn ts = fn ++ "_" ++ ts)
    ∧ (pyContainsChar fn '.' = true → ext_part fn ≠ "" →
        make_destination_filename true fn ts = spec_destination_filename true fn ts)
    ∧ (pyContainsChar fn '.' = true → ext_part fn = "" →
        make_destination_filename true fn ts = name_part fn ++ "_" ++ ts)
    ∧ (eff.copy_result = .ok () → d.delete_source.getD false = false →
        process_file b k d eff = .success ("s3://" ++ b ++ "/" ++ k)
          ("s3://" ++ d.destination_bucket ++ "/"
            ++ (d.destination_pfx
              ++ make_destination_filename (d.add_timestamp.getD true) (lastSegment k) eff.timestamp))
          d.name (priority_str d)) := by
  refine ⟨rfl, ?_, ?_, ?_, ?_⟩
  · intro h
    have hcond : ¬(pyContainsChar fn '.' = true) := by
      rw [h]
      exact Bool.false_ne_true
    have hextv : ext_part fn = "" := by rw [ext_part, if_neg hcond]
    have hnamev : name_part fn = fn := by rw [name_part, if_neg hcond]
    unfold make_destination_filename
    rw [if_pos rfl, hextv, hnamev]
    simp
  · intro hdot hext
    unfold make_destination_filename spec_destination_filename
    rw [if_pos rfl, if_pos rfl, if_pos hdot, if_pos hext]
    simp [String.append_assoc]
  · intro hdot hext
    unfold make_destination_filename
    rw [if_pos rfl, if_neg (show ¬(ext_part fn ≠ "") from fun hh => hh hext)]
    simp
  · intro hcopy hdel
    unfold process_file
    dsimp only
    rw [hcopy]
    rw [if_neg (by rw [hdel]; exact Bool.false_ne_true)]

theorem C8_amended_destination_witness :
    make_destination_filename false "report.csv" "T" = "report.csv"
    ∧ make_destination_filename true "report" "T" = "report" ++ "_" ++ "T"
    ∧ make_destination_filename true "report.csv" "T" = spec_destination_filename true "report.csv" "T"
    ∧ process_file "src" "Inbox/data.csv" rule_csv eff0 = .success ("s3://" ++ "src" ++ "/" ++ "Inbox/data.csv")
        ("s3://" ++ rule_csv.destination_bucket ++ "/"
          ++ (rule_csv.destination_pfx
            ++ make_destination_filename (rule_csv.add_timestamp.getD true)
              (lastSegment "Inbox/data.csv") eff0.timestamp))
        rule_csv.name (priority_str rule_csv) :=
  ⟨(C8_amended_destination "report.csv" "T" "b" "k" rule_csv eff0).1,
   (C8_amended_destination "report" "T" "b" "k" rule_csv eff0).2.1 (by decide),
   (C8_amended_destination "report.csv" "T" "b" "k" rule_csv eff0).2.2.1 (by decide) (by decide),
   (C8_amended_destination "x" "T" "src" "Inbox/data.csv" rule_csv eff0).2.2.2.2 rfl (by decide)⟩

/-- Claim C4 counterexample: with a CACHED EMPTY rule set and a recorded
timestamp (10) equal to the freshly observed one, the loader re-fetches the
document (fetch flag true) and returns the newly parsed rules instead of the
cached set unchanged — the guard tests Python truthiness of the cached list,
and an empty list is falsy. -/
theorem C4_counterexample :
    (load_routing_config ⟨some [], some 10⟩ (.ok 10) (.ok [rule_csv])).2.2 = true
    ∧ (load_routing_config ⟨some [], some 10⟩ (.ok 10) (.ok [rule_csv])).1 = [rule_csv] :=
  ⟨by decide, rfl⟩

/-- Claim C4 as amended: if a NON-EMPTY cached rule set exists and its
recorded timestamp is ≥ the observed one, the cached set is returned
unchanged with no fetch; otherwise (including when the cache holds the empty
rule set) the document is fetched, sorted ascending by priority — a stable
sort with sentinel 999 for a missing priority — cached with the new
timestamp, and returned.  Sortedness, permutation and per-priority stability
(equal-priority rules retain source order) of `sort_rules` are stated
explicitly. -/
theorem C4_amended_cache (st : CacheState) (c : List Rule) (ts lm : Nat)
    (doc : Except Unit (List Rule)) (rules : List Rule) :
    (st.cached_config = some c → c ≠ [] → st.config_last_modified = some ts → lm ≤ ts →
      load_routing_config st (.ok lm) doc = (c, st, false))
    ∧ (cache_hit st lm = false →
      load_routing_config st (.ok lm) (.ok rules)
        = (sort_rules rules, ⟨some (sort_rules rules), some lm⟩, true))
    ∧ List.Pairwise (fun a b => ruleKey a ≤ ruleKey b) (sort_rules rules)
    ∧ List.Perm (sort_rules rules) rules
    ∧ (∀ q : Int, (sort_rules rules).filter (fun r => ruleKey r == q)
        = rules.filter (fun r => ruleKey r == q)) := by
  refine ⟨?_, ?_, sort_rules_pairwise rules, sort_rules_perm rules, sort_rules_filter rules⟩
  · intro hc hne hts hlm
    have hhit : cache_hit st lm = true := by
      unfold cache_hit
      rw [hc, hts]
      simp only [Bool.and_eq_true, Bool.not_eq_true', decide_eq_true_eq]
      exact ⟨by simp [List.isEmpty_iff, hne], hlm⟩
    unfold load_routing_config
    dsimp only
    rw [if_pos hhit, hc]
    rfl
  · intro hmiss
    unfold load_routing_config
    dsimp only
    rw [if_neg (by rw [hmiss]; exact Bool.false_ne_true)]

theorem C4_amended_cache_witness :
    load_routing_config ⟨some [rule_csv], some 10⟩ (.ok 10) (.ok [])
      = ([rule_csv], ⟨some [rule_csv], some 10⟩, false)
    ∧ load_routing_config ⟨none, none⟩ (.ok 5) (.ok [rule_csv, rule_invalid_pt])
      = ([rule_csv, rule_invalid_pt], ⟨some [rule_csv, rule_invalid_pt], some 5⟩, true) :=
  ⟨(C4_amended_cache ⟨some [rule_csv], some 10⟩ [rule_csv] 10 10 (.ok []) []).1
      rfl (by simp) rfl (by decide),
   (C4_amended_cache ⟨none, none⟩ [] 0 5 (.ok []) [rule_csv, rule_invalid_pt]).2.1 (by decide)⟩

/-- Claim C5: every loading failure — head failure (with or without a cache)
or fetch/parse failure on a cache miss — yields the EMPTY rule set, never the
baked-in `get_fallback_config` list (which is non-empty but never consulted),
and the batch still completes normally with every object skipped: status 200,
zero processed, zero errors, empty result lists. -/
theorem C5_failure_empty_rules (st : CacheState) (doc : Except Unit (List Rule)) (lm : Nat)
    (oracle : RegexOracle) (env : Option String) (records : List Record)
    (effects : Nat → FileEffects) :
    load_routing_config st (.error ()) doc = ([], st, false)
    ∧ (cache_hit st lm = false → load_routing_config st (.ok lm) (.error ()) = ([], st, true))
    ∧ get_fallback_config ≠ []
    ∧ lambda_handler oracle env st (.error ()) doc records effects = .ok ⟨200, 0, 0, [], []⟩
    ∧ (cache_hit st lm = false →
      lambda_handler oracle env st (.ok lm) (.error ()) records effects
        = .ok ⟨200, 0, 0, [], []⟩) := by
  refine ⟨rfl, ?_, by simp [get_fallback_config], ?_, ?_⟩
  · intro hmiss
    unfold load_routing_config
    dsimp only
    rw [if_neg (by rw [hmiss]; exact Bool.false_ne_true)]
  · unfold lambda_handler
    dsimp only [load_routing_config]
    rw [run_records_nil_rules oracle (env.getD "config/routing-rules.json") effects records 0]
    rfl
  · intro hmiss
    have hload : (load_routing_config st (.ok lm) (.error ())).1 = [] := by
      unfold load_routing_config
      dsimp only
      rw [if_neg (by rw [hmiss]; exact Bool.false_ne_true)]
    unfold lambda_handler
    dsimp only
    rw [hload, run_records_nil_rules oracle (env.getD "config/routing-rules.json") effects records 0]
    rfl

theorem C5_failure_empty_rules_witness :
    load_routing_config ⟨none, none⟩ (.ok 3) (.error ()) = ([], ⟨none, none⟩, true)
    ∧ lambda_handler oracle0 none ⟨none, none⟩ (.ok 3) (.error ())
        [⟨"b", "Inbox/a.csv"⟩] (fun _ => eff0) = .ok ⟨200, 0, 0, [], []⟩ :=
  ⟨(C5_failure_empty_rules ⟨none, none⟩ (.error ()) 3 oracle0 none [] (fun _ => eff0)).2.1
      (by decide),
   (C5_failure_empty_rules ⟨none, none⟩ (.error ()) 3 oracle0 none
      [⟨"b", "Inbox/a.csv"⟩] (fun _ => eff0)).2.2.2.2 (by decide)⟩

/-- Claim C9 counterexample: a batch with one record and one rule whose
filename filter is missing its `value` field makes the handler RAISE
(`KeyError` escaping `find_best_destination`, which has no surrounding
`try`), instead of always returning a 200/207 batch result as claimed. -/
theorem C9_counterexample :
    lambda_handler oracle0 none ⟨none, none⟩ (.ok 1) (.ok [rule_bad_filter])
      [⟨"b", "Inbox/a.csv"⟩] (fun _ => eff0) = .error "KeyError: value" := rfl

/-- Claim C9 as amended: exceptions inside `process_file` (copy failure,
delete failure) ARE caught and converted to failure results with a
descriptive message, so a failing object does not stop the rest of the
batch; and PROVIDED rule matching raises no exception for any record, the
handler returns a result whose status is 207 exactly when some object
failed and 200 otherwise, with the counts equal to the lengths of the
per-object success/failure lists; an exception raised during rule matching,
however, propagates and aborts the whole invocation (see the
counterexample). -/
theorem C9_amended_batch (oracle : RegexOracle) (env : Option String) (st : CacheState)
    (hr : Except Unit Nat) (dr : Except Unit (List Rule)) (records : List Record)
    (effects : Nat → FileEffects) (b k e : String) (d : Rule) (eff : FileEffects) :
    (eff.copy_result = .error e →
      process_file b k d eff
        = .failure ("s3://" ++ b ++ "/" ++ k) ("Failed to process " ++ k ++ ": " ++ e))
    ∧ (eff.copy_result = .ok () → d.delete_source.getD false = true →
      eff.delete_result = .error e →
      process_file b k d eff
        = .failure ("s3://" ++ b ++ "/" ++ k) ("Failed to process " ++ k ++ ": " ++ e))
    ∧ ((∀ rec ∈ records, ∃ o,
        find_best_destination oracle rec.object_key ((load_routing_config st hr dr).1) = .ok o) →
      ∃ res : HandlerResult, lambda_handler oracle env st hr dr records effects = .ok res
        ∧ res.statusCode = (if res.failed = [] then 200 else 207)
        ∧ res.errors = res.failed.length
        ∧ res.processed_files = res.successful.length
        ∧ (∀ x ∈ res.successful, x.isSuccess = true)
        ∧ (∀ x ∈ res.failed, x.isSuccess = false)) := by
  refine ⟨?_, ?_, ?_⟩
  · intro hcopy
    unfold process_file
    dsimp only
    rw [hcopy]
  · intro hcopy hdel hdelete
    unfold process_file
    dsimp only
    rw [hcopy, if_pos hdel, hdelete]
  · intro hall
    obtain ⟨s, f, hrun, hs, hf⟩ := run_records_ok_of_resolved oracle
      (env.getD "config/routing-rules.json") ((load_routing_config st hr dr).1)
      effects records 0 hall
    refine ⟨⟨if f.length = 0 then 200 else 207, s.length, f.length, s, f⟩, ?_, ?_, rfl, rfl, hs, hf⟩
    · unfold lambda_handler
      dsimp only
      rw [hrun]
    · show (if f.length = 0 then 200 else 207) = if f = [] then 200 else 207
      by_cases hfe : f = []
      · subst hfe
        simp
      · rw [if_neg (fun hh => hfe (List.length_eq_zero.mp hh)), if_neg hfe]

theorem C9_amended_batch_witness :
    process_file "b" "Inbox/a.csv" rule_csv eff_copy_fail
      = .failure ("s3://" ++ "b" ++ "/" ++ "Inbox/a.csv")
        ("Failed to process " ++ "Inbox/a.csv" ++ ": " ++ "AccessDenied")
    ∧ process_file "b" "Inbox/a.csv" rule_del eff_del_fail
      = .failure ("s3://" ++ "b" ++ "/" ++ "Inbox/a.csv")
        ("Failed to process " ++ "Inbox/a.csv" ++ ": " ++ "AccessDenied")
    ∧ ∃ res : HandlerResult,
      lambda_handler oracle0 none ⟨none, none⟩ (.ok 1) (.ok [rule_csv])
        [⟨"b", "Inbox/data.csv"⟩] (fun _ => eff0) = .ok res
      ∧ res.statusCode = (if res.failed = [] then 200 else 207)
      ∧ res.errors = res.failed.length
      ∧ res.processed_files = res.successful.length
      ∧ (∀ x ∈ res.successful, x.isSuccess = true)
      ∧ (∀ x ∈ res.failed, x.isSuccess = false) :=
  ⟨(C9_amended_batch oracle0 none ⟨none, none⟩ (.ok 1) (.ok [rule_csv]) [] (fun _ => eff0)
      "b" "Inbox/a.csv" "AccessDenied" rule_csv eff_copy_fail).1 rfl,
   (C9_amended_batch oracle0 none ⟨none, none⟩ (.ok 1) (.ok [rule_csv]) [] (fun _ => eff0)
      "b" "Inbox/a.csv" "AccessDenied" rule_del eff_del_fail).2.1 rfl rfl rfl,
   (C9_amended_batch oracle0 none ⟨none, none⟩ (.ok 1) (.ok [rule_csv])
      [⟨"b", "Inbox/data.csv"⟩] (fun _ => eff0)
      "b" "Inbox/a.csv" "AccessDenied" rule_csv eff0).2.2
     (by
       intro rec hrec
       rw [List.mem_singleton.mp hrec]
       exact ⟨some rule_csv, rfl⟩)⟩

/-- Claim C10: an event record whose (decoded) key equals the configured
config-document key — the `CONFIG_FILE_KEY` environment value, defaulting to
`config/routing-rules.json` — is skipped outright: the handler result on a
batch starting with such a record equals the result on the remaining batch
alone (for EVERY oracle, rule document and effect assignment, so no rule
resolution, no copy/delete and no per-object result can depend on it). -/
theorem C10_config_key_skip (oracle : RegexOracle) (env : Option String) (st : CacheState)
    (hr : Except Unit Nat) (dr : Except Unit (List Rule)) (rec : Record) (rest : List Record)
    (effects : Nat → FileEffects)
    (h : rec.object_key = env.getD "config/routing-rules.json") :
    lambda_handler oracle env st hr dr (rec :: rest) effects
      = lambda_handler oracle env st hr dr rest (fun j => effects (j + 1)) := by
  unfold lambda_handler
  dsimp only
  rw [run_records_shift oracle (env.getD "config/routing-rules.json")
    ((load_routing_config st hr dr).1) effects rest 0]
  have hstep : run_records oracle (env.getD "config/routing-rules.json")
      ((load_routing_config st hr dr).1) effects 0 (rec :: rest)
      = run_records oracle (env.getD "config/routing-rules.json")
        ((load_routing_config st hr dr).1) effects 1 rest := by
    rw [run_records, if_pos h]
  rw [hstep]

theorem C10_config_key_skip_witness :
    lambda_handler oracle0 none ⟨none, none⟩ (.ok 1) (.ok [rule_csv])
      [⟨"b", "config/routing-rules.json"⟩] (fun _ => eff0)
      = lambda_handler oracle0 none ⟨none, none⟩ (.ok 1) (.ok [rule_csv]) []
          (fun j => (fun _ => eff0) (j + 1)) :=
  C10_config_key_skip oracle0 none ⟨none, none⟩ (.ok 1) (.ok [rule_csv])
    ⟨"b", "config/routing-rules.json"⟩ [] (fun _ => eff0) rfl
